import Mathlib

/-!
Shallow embedding of the rectpack_api packing core (src/app/packing.py,
src/app/models.py, src/app/errors.py) and proofs about the claims of its
specification.

Modelling conventions:
* Python floats carrying millimeter values are modelled as exact rationals
  (`ℚ`); every concrete input used in a counterexample or witness is exactly
  representable as a binary float, so float arithmetic agrees with `ℚ`
  arithmetic there.
* Python ints are `ℤ` (or `ℕ` where pydantic enforces non-negativity).
* The external rectpack packer, the Mersenne-Twister random stream and the
  wall clock are external to the repository; they enter the model as an
  explicit environment (`Env`) of deterministic functions, as the spec's
  "external packer behaving as a deterministic function of its inputs".
* Fallible code returns `Except ApiErr`; an unhandled Python exception
  (index error) is `ApiErr.internal`.
-/

namespace RectPack

/-! ## Numeric helpers (packing.py lines 87-100) -/

/-- Python's built-in `round` on a float: round half to even (banker's
rounding).  `_mm_to_int` calls `int(round(value_mm * scale))`; for an
integer-valued tie CPython rounds to the nearest even integer. -/
def pythonRound (x : ℚ) : ℤ :=
  let n := Int.floor x
  let d := x - n
  if d < 1/2 then n
  else if 1/2 < d then n + 1
  else if n % 2 = 0 then n else n + 1

/-- `_mm_to_int(value_mm, scale) = int(round(value_mm * scale))`. -/
def mm_to_int (value_mm : ℚ) (scale : ℤ) : ℤ :=
  pythonRound (value_mm * scale)

/-- `_int_to_mm(value_int, scale) = value_int / scale`. -/
def int_to_mm (value_int : ℤ) (scale : ℤ) : ℚ :=
  (value_int : ℚ) / (scale : ℚ)

/-- `_splitmix64`: the fixed 64-bit mixer.  Python's `& 0xFFFFFFFFFFFFFFFF`
on a possibly negative int is `emod 2^64`. -/
def splitmix64 (seed : ℤ) : ℕ :=
  let mask : ℕ := 2 ^ 64 - 1
  let x : ℕ := ((seed + 0x9E3779B97F4A7C15).emod (2 ^ 64)).toNat
  let z1 : ℕ := ((x ^^^ (x >>> 30)) * 0xBF58476D1CE4E5B9) &&& mask
  let z2 : ℕ := ((z1 ^^^ (z1 >>> 27)) * 0x94D049BB133111EB) &&& mask
  z2 ^^^ (z2 >>> 31)

/-- Spec-side definition (section 4.1 of the spec): round half away from
zero.  This follows the spec's words, to be compared with `mm_to_int`. -/
def round_half_away_from_zero (x : ℚ) : ℤ :=
  if 0 ≤ x then Int.floor (x + 1/2) else Int.ceil (x - 1/2)

/-! ## Data model (models.py) -/

inductive Rotation
  | forbid
  | allow_90
deriving DecidableEq

inductive PatternDir
  | none
  | along_width
  | along_height
deriving DecidableEq

inductive Objective
  | min_waste
  | min_sheets
deriving DecidableEq

inductive Mode
  | guillotine
  | nested
deriving DecidableEq

inductive PackerKind
  | guillotine
  | maxrects
  | skyline
deriving DecidableEq

inductive BinSelectKind
  | best_fit
  | first_fit
deriving DecidableEq

inductive SortKind
  | area_desc
  | maxside_desc
  | none
deriving DecidableEq

structure Trim where
  left : ℚ
  right : ℚ
  top : ℚ
  bottom : ℚ
deriving DecidableEq

/-- The request's optional `engine` override (all fields optional). -/
structure EngineOpt where
  packer : Option PackerKind
  bin_select : Option BinSelectKind
  sort : Option SortKind
deriving DecidableEq

/-- The resolved engine triple (all fields filled by `_resolve_mode_engine`). -/
structure Engine where
  packer : PackerKind
  bin_select : BinSelectKind
  sort : SortKind
deriving DecidableEq

structure Params where
  mode : Option Mode
  spacing_mm : ℚ
  trim_mm : Trim
  time_limit_ms : ℕ
  restarts : ℕ
  objective : Objective
  seed : Option ℤ
  engine : Option EngineOpt
  unit_scale : Option ℤ
deriving DecidableEq

structure Stock where
  id : String
  width_mm : ℚ
  height_mm : ℚ
  qty : ℕ
deriving DecidableEq

structure Item where
  id : String
  width_mm : ℚ
  height_mm : ℚ
  qty : ℕ
  rotation : Rotation
  pattern_direction : PatternDir
deriving DecidableEq

structure OptimizeRequest where
  units : String
  params : Params
  stock : List Stock
  items : List Item
deriving DecidableEq

structure EngineSummary where
  packer : PackerKind
  bin_select : BinSelectKind
  sort : SortKind
deriving DecidableEq

structure Summary where
  mode : Mode
  objective : Objective
  used_stock_count : ℕ
  total_waste_area_mm2 : ℚ
  waste_percent : ℚ
  time_ms : ℕ
  restarts_used : ℕ
  seed : ℤ
  engine : EngineSummary
deriving DecidableEq

/-- Output placement.  `instance` is a Lean keyword, so the source field
`instance` is named `instance_no` here. -/
structure Placement where
  item_id : String
  instance_no : ℕ
  x_mm : ℚ
  y_mm : ℚ
  width_mm : ℚ
  height_mm : ℚ
  rotated : Bool
  pattern_direction : PatternDir
deriving DecidableEq

structure Solution where
  stock_id : String
  index : ℕ
  width_mm : ℚ
  height_mm : ℚ
  trim_mm : Trim
  placements : List Placement
deriving DecidableEq

structure Artifacts where
  svg : String
deriving DecidableEq

structure OptimizeResponse where
  status : String
  summary : Summary
  solutions : List Solution
  artifacts : Artifacts
deriving DecidableEq

/-- errors.py: the four `ApiError` subclasses raised by the core. -/
inductive ApiErr
  | validation (msg : String)
  | constraint (msg : String)
  | timeout
  | internal
deriving DecidableEq

/-- errors.py: HTTP status code per error class. -/
def ApiErr.statusCode : ApiErr → ℕ
  | .validation _ => 422
  | .constraint _ => 400
  | .timeout => 408
  | .internal => 500

/-- errors.py: stable error-code identifier per error class. -/
def ApiErr.errorCode : ApiErr → String
  | .validation _ => "VALIDATION_ERROR"
  | .constraint _ => "CONSTRAINT_ERROR"
  | .timeout => "TIMEOUT"
  | .internal => "INTERNAL"

/-! ## Internal metadata records (packing.py dataclasses) -/

structure BinMeta where
  stock_id : String
  index : ℕ
  width_mm : ℚ
  height_mm : ℚ
  trim_left : ℚ
  trim_top : ℚ
  bin_w_int : ℤ
  bin_h_int : ℤ
  bin_w_mm : ℚ
  bin_h_mm : ℚ
deriving DecidableEq

structure RectMeta where
  item_id : String
  instance_no : ℕ
  width_mm : ℚ
  height_mm : ℚ
  rotated : Bool
  pattern_direction : PatternDir
  width_eff_int : ℤ
  height_eff_int : ℤ
deriving DecidableEq

structure PackedRect where
  bin_index : ℕ
  x_int : ℤ
  y_int : ℤ
  w_int : ℤ
  h_int : ℤ
  rid : ℤ
deriving DecidableEq

structure GRect where
  x : ℤ
  y : ℤ
  w : ℤ
  h : ℤ
deriving DecidableEq

/-! ## Configuration defaults (config.py)

Only `max_instances` and `default_unit_scale` are read by the core; the model
uses the documented defaults (5000 and 100). -/

def maxInstances : ℕ := 5000

def defaultUnitScale : ℤ := 100

/-! ## Resolution helpers (packing.py `optimize` preamble)

Python `or` treats `None` AND `0` as falsy, so a provided-but-zero
`unit_scale` or `seed` falls back to the default — this is modelled
exactly. -/

/-- `scale = req.params.unit_scale or settings.default_unit_scale`. -/
def resolveScale (unit_scale : Option ℤ) : ℤ :=
  match unit_scale with
  | Option.none => defaultUnitScale
  | Option.some u => if u = 0 then defaultUnitScale else u

/-- `used_seed = req.params.seed or int(time.time() * 1000)`;
`entryClockMs` is the wall clock read at that point. -/
def resolveSeed (seed : Option ℤ) (entryClockMs : ℤ) : ℤ :=
  match seed with
  | Option.none => entryClockMs
  | Option.some s => if s = 0 then entryClockMs else s

/-- `_resolve_mode_engine` (packing.py lines 103-125).  `params.mode` is
`None` or a valid literal, so `params.mode or "guillotine"` is `getD`. -/
def resolve_mode_engine (req : OptimizeRequest) : Except ApiErr (Mode × Engine) :=
  let mode := req.params.mode.getD Mode.guillotine
  let defaultPacker := match mode with
    | Mode.guillotine => PackerKind.guillotine
    | Mode.nested => PackerKind.maxrects
  let engine : Engine := match req.params.engine with
    | Option.none =>
        { packer := defaultPacker, bin_select := BinSelectKind.best_fit
          sort := SortKind.area_desc }
    | Option.some e =>
        { packer := e.packer.getD defaultPacker
          bin_select := e.bin_select.getD BinSelectKind.best_fit
          sort := e.sort.getD SortKind.area_desc }
  if mode = Mode.guillotine ∧ engine.packer ≠ PackerKind.guillotine then
    Except.error (ApiErr.validation "engine.packer must be guillotine for mode=guillotine")
  else if mode = Mode.nested ∧ engine.packer = PackerKind.guillotine then
    Except.error (ApiErr.validation "engine.packer must not be guillotine for mode=nested")
  else
    Except.ok (mode, engine)

/-! ## Orientation resolver (`_allowed_orientations`, packing.py lines 128-157) -/

def allowed_orientations (width_mm height_mm : ℚ) (rotation : Rotation)
    (pattern : PatternDir) : Except ApiErr (List (ℚ × ℚ × Bool)) :=
  if width_mm = height_mm then
    Except.ok [(width_mm, height_mm, false)]
  else
    let base := (width_mm, height_mm, false) ::
      (if rotation = Rotation.allow_90 then [(height_mm, width_mm, true)] else [])
    match pattern with
    | PatternDir.none => Except.ok base
    | PatternDir.along_width =>
        if height_mm ≤ width_mm then Except.ok [(width_mm, height_mm, false)]
        else if rotation ≠ Rotation.allow_90 then
          Except.error (ApiErr.validation "pattern_direction requires rotation but rotation is forbidden")
        else Except.ok [(height_mm, width_mm, true)]
    | PatternDir.along_height =>
        if ¬ height_mm ≤ width_mm then Except.ok [(width_mm, height_mm, false)]
        else if rotation ≠ Rotation.allow_90 then
          Except.error (ApiErr.validation "pattern_direction requires rotation but rotation is forbidden")
        else Except.ok [(height_mm, width_mm, true)]

/-! ## Pre-flight validation (`_validate_request`, packing.py lines 160-179) -/

/-- Per-stock trim checks, raising on the first violating stock as the
source loop does. -/
def checkStocks (trim : Trim) : List Stock → Except ApiErr Unit
  | [] => Except.ok ()
  | s :: rest =>
      if s.width_mm ≤ trim.left + trim.right then
        Except.error (ApiErr.validation "trim.left + trim.right must be less than stock.width_mm")
      else if s.height_mm ≤ trim.top + trim.bottom then
        Except.error (ApiErr.validation "trim.top + trim.bottom must be less than stock.height_mm")
      else checkStocks trim rest

def totalQty (items : List Item) : ℕ :=
  (items.map (fun it => it.qty)).sum

def validate_request (req : OptimizeRequest) (scale : ℤ) : Except ApiErr Unit :=
  if req.units ≠ "mm" then
    Except.error (ApiErr.validation "units must be mm")
  else if min 5000 maxInstances < totalQty req.items then
    Except.error (ApiErr.validation "items.qty total exceeds limit")
  else if 50 < req.stock.length then
    Except.error (ApiErr.validation "stock length exceeds limit")
  else
    match checkStocks req.params.trim_mm req.stock with
    | Except.error e => Except.error e
    | Except.ok _ =>
        if scale ≤ 0 then
          Except.error (ApiErr.validation "unit_scale must be positive")
        else Except.ok ()

/-! ## Bin builder (`_build_bins`, packing.py lines 182-205) -/

def binsForStock (trim : Trim) (scale : ℤ) (s : Stock) : List BinMeta :=
  let bin_w_mm := s.width_mm - trim.left - trim.right
  let bin_h_mm := s.height_mm - trim.top - trim.bottom
  (List.range s.qty).map fun i =>
    { stock_id := s.id
      index := i
      width_mm := s.width_mm
      height_mm := s.height_mm
      trim_left := trim.left
      trim_top := trim.top
      bin_w_int := mm_to_int bin_w_mm scale
      bin_h_int := mm_to_int bin_h_mm scale
      bin_w_mm := bin_w_mm
      bin_h_mm := bin_h_mm }

def build_bins (req : OptimizeRequest) (scale : ℤ) : List BinMeta :=
  req.stock.flatMap (binsForStock req.params.trim_mm scale)

/-! ## Fit validation (`_validate_fit`, packing.py lines 208-227) -/

def itemFits (spacing : ℚ) (scale : ℤ) (bins : List BinMeta)
    (orients : List (ℚ × ℚ × Bool)) : Bool :=
  orients.any fun o =>
    bins.any fun b =>
      decide (mm_to_int (o.1 + spacing) scale ≤ b.bin_w_int) &&
      decide (mm_to_int (o.2.1 + spacing) scale ≤ b.bin_h_int)

def validate_fit (spacing : ℚ) (scale : ℤ) (bins : List BinMeta) :
    List Item → Except ApiErr Unit
  | [] => Except.ok ()
  | item :: rest =>
      match allowed_orientations item.width_mm item.height_mm item.rotation
          item.pattern_direction with
      | Except.error e => Except.error e
      | Except.ok orients =>
          if itemFits spacing scale bins orients then
            validate_fit spacing scale bins rest
          else
            Except.error (ApiErr.validation ("item " ++ item.id ++ " cannot fit into any stock"))

/-! ## Guillotine checker (`_is_guillotine`, packing.py lines 316-346)

The source recursion terminates because every admissible cut is strictly
interior to the current box, so each recursive call strictly shrinks one box
side.  The Lean embedding makes this explicit with a fuel parameter;
`is_guillotine` supplies fuel `w.toNat + h.toNat + 1`, which the stability
theorem below proves sufficient.

The source iterates over `sorted({r.x} | {r.x + r.w})`; since the loop is an
existence search with early return, sorting and deduplication do not affect
the result, and the candidate multiset is kept as a plain list here. -/

def is_guillotine_fuel : ℕ → List GRect → ℤ → ℤ → ℤ → ℤ → Bool
  | 0, _, _, _, _, _ => false
  | fuel + 1, rects, x0, y0, w, h =>
      if rects.length ≤ 1 then true
      else
        let xs := rects.map (fun r => r.x) ++ rects.map (fun r => r.x + r.w)
        let ys := rects.map (fun r => r.y) ++ rects.map (fun r => r.y + r.h)
        (xs.any fun x =>
          decide (x0 < x) && decide (x < x0 + w) &&
          !(rects.any fun r => decide (r.x < x) && decide (x < r.x + r.w)) &&
          is_guillotine_fuel fuel (rects.filter fun r => decide (r.x + r.w ≤ x))
            x0 y0 (x - x0) h &&
          is_guillotine_fuel fuel (rects.filter fun r => decide (x ≤ r.x))
            x y0 (x0 + w - x) h) ||
        (ys.any fun y =>
          decide (y0 < y) && decide (y < y0 + h) &&
          !(rects.any fun r => decide (r.y < y) && decide (y < r.y + r.h)) &&
          is_guillotine_fuel fuel (rects.filter fun r => decide (r.y + r.h ≤ y))
            x0 y0 w (y - y0) &&
          is_guillotine_fuel fuel (rects.filter fun r => decide (y ≤ r.y))
            x0 y w (y0 + h - y))

def is_guillotine (rects : List GRect) (x0 y0 w h : ℤ) : Bool :=
  is_guillotine_fuel (w.toNat + h.toNat + 1) rects x0 y0 w h

/-! ## Instance builder (`_build_instances`, packing.py lines 349-395)

`random.Random(seed)` is a Mersenne-Twister stream, external to the
repository.  It is modelled by two deterministic functions supplied through
the environment: `pick seed k` gives the index chosen by the k-th
`rng.choice` call and `shuffle seed l` gives the result of `rng.shuffle`.
Everything downstream is thereby a deterministic function of the restart
seed, which is the property the determinism claims rest on. -/

/-- Inner loop over one item's `qty` instances.  Arguments: remaining count,
next `rect_id` counter, next choice-call counter, current 1-based instance
number; returns the generated pairs and the final counters. -/
def itemInstGo (pick : ℕ → ℕ → ℕ) (spacing : ℚ) (scale : ℤ) (seed : ℕ)
    (item : Item) (orients : List (ℚ × ℚ × Bool)) :
    ℕ → ℕ → ℕ → ℕ → List (ℤ × RectMeta) × ℕ × ℕ
  | 0, rectId, cIdx, _ => ([], rectId, cIdx)
  | n + 1, rectId, cIdx, idx =>
      let chosen :=
        if orients.length = 1 then (orients.getD 0 ((0 : ℚ), (0 : ℚ), false), cIdx)
        else (orients.getD (pick seed cIdx % orients.length) ((0 : ℚ), (0 : ℚ), false),
              cIdx + 1)
      let w_mm := chosen.1.1
      let h_mm := chosen.1.2.1
      let rotated := chosen.1.2.2
      let meta : RectMeta :=
        { item_id := item.id
          instance_no := idx
          width_mm := w_mm
          height_mm := h_mm
          rotated := rotated
          pattern_direction := item.pattern_direction
          width_eff_int := mm_to_int (w_mm + spacing) scale
          height_eff_int := mm_to_int (h_mm + spacing) scale }
      let rest := itemInstGo pick spacing scale seed item orients n (rectId + 1)
        chosen.2 (idx + 1)
      ((((rectId : ℤ) + 1, meta) :: rest.1), rest.2)

/-- Outer loop over the items. -/
def buildInstGo (pick : ℕ → ℕ → ℕ) (spacing : ℚ) (scale : ℤ) (seed : ℕ) :
    List Item → ℕ → ℕ → Except ApiErr (List (ℤ × RectMeta) × ℕ)
  | [], rectId, _ => Except.ok ([], rectId)
  | item :: rest, rectId, cIdx =>
      match allowed_orientations item.width_mm item.height_mm item.rotation
          item.pattern_direction with
      | Except.error e => Except.error e
      | Except.ok orients =>
          let this := itemInstGo pick spacing scale seed item orients item.qty
            rectId cIdx 1
          match buildInstGo pick spacing scale seed rest this.2.1 this.2.2 with
          | Except.error e => Except.error e
          | Except.ok more => Except.ok (this.1 ++ more.1, more.2)

/-- Stable insertion step for descending sort by an integer key: an element
goes in front of the first strictly smaller key, after equal keys. -/
def insertDesc (key : ℤ × RectMeta → ℤ) (a : ℤ × RectMeta) :
    List (ℤ × RectMeta) → List (ℤ × RectMeta)
  | [] => [a]
  | b :: l => if key b ≤ key a then a :: b :: l else b :: insertDesc key a l

/-- Stable descending sort (insertion sort).  Python's `list.sort(key=...,
reverse=True)` is also stable descending, and a stable sorted permutation is
unique, so the two agree element for element. -/
def sortDesc (key : ℤ × RectMeta → ℤ) : List (ℤ × RectMeta) → List (ℤ × RectMeta)
  | [] => []
  | a :: l => insertDesc key a (sortDesc key l)

def build_instances (pick : ℕ → ℕ → ℕ)
    (shuffle : ℕ → List (ℤ × RectMeta) → List (ℤ × RectMeta))
    (req : OptimizeRequest) (engine : Engine) (scale : ℤ) (seed : ℕ) :
    Except ApiErr (List (ℤ × RectMeta) × ℕ) :=
  match buildInstGo pick req.params.spacing_mm scale seed req.items 0 0 with
  | Except.error e => Except.error e
  | Except.ok built =>
      let shuffled := shuffle seed built.1
      let sorted := match engine.sort with
        | SortKind.none => shuffled
        | SortKind.maxside_desc =>
            sortDesc (fun p => max p.2.width_eff_int p.2.height_eff_int) shuffled
        | SortKind.area_desc =>
            sortDesc (fun p => p.2.width_eff_int * p.2.height_eff_int) shuffled
      Except.ok (sorted, built.2)

/-! ## Evaluator (`_evaluate_solution`, packing.py lines 398-439) -/

/-- Association-list lookup for the `rect_meta` dict. -/
def lookupMeta (meta : List (ℤ × RectMeta)) (rid : ℤ) : Option RectMeta :=
  match meta.find? (fun p => p.1 = rid) with
  | Option.none => Option.none
  | Option.some p => Option.some p.2

/-- `placements_by_bin.setdefault(idx, []).append(p)`: insertion-ordered
grouping. -/
def addToBin (acc : List (ℕ × List Placement)) (idx : ℕ) (p : Placement) :
    List (ℕ × List Placement) :=
  match acc with
  | [] => [(idx, [p])]
  | (j, ps) :: rest =>
      if j = idx then (j, ps ++ [p]) :: rest else (j, ps) :: addToBin rest idx p

structure EvalOut where
  used : ℕ
  waste : ℚ
  wastePercent : ℚ
  byBin : List (ℕ × List Placement)
  placed : ℕ

/-- The grouping loop of `_evaluate_solution`.  An out-of-range `bin_index`
would raise `IndexError` in Python (an internal error); that is `none`
here. -/
def evalGo (bins : List BinMeta) (meta : List (ℤ × RectMeta)) (scale : ℤ) :
    List PackedRect → List (ℕ × List Placement) → Option (List (ℕ × List Placement))
  | [], acc => Option.some acc
  | r :: rest, acc =>
      match lookupMeta meta r.rid with
      | Option.none => evalGo bins meta scale rest acc
      | Option.some m =>
          match bins.get? r.bin_index with
          | Option.none => Option.none
          | Option.some bm =>
              let p : Placement :=
                { item_id := m.item_id
                  instance_no := m.instance_no
                  x_mm := int_to_mm r.x_int scale + bm.trim_left
                  y_mm := int_to_mm r.y_int scale + bm.trim_top
                  width_mm := m.width_mm
                  height_mm := m.height_mm
                  rotated := m.rotated
                  pattern_direction := m.pattern_direction }
              evalGo bins meta scale rest (addToBin acc r.bin_index p)

/-- `bins[idx].bin_w_mm * bins[idx].bin_h_mm`; every index reaching this is
in range (it was checked when the group was created). -/
def binUsableArea (bins : List BinMeta) (idx : ℕ) : ℚ :=
  match bins.get? idx with
  | Option.none => 0
  | Option.some b => b.bin_w_mm * b.bin_h_mm

def evaluate_solution (bins : List BinMeta) (rects : List PackedRect)
    (meta : List (ℤ × RectMeta)) (scale : ℤ) : Option EvalOut :=
  match evalGo bins meta scale rects [] with
  | Option.none => Option.none
  | Option.some byBin =>
      let usedArea := (byBin.map (fun p => binUsableArea bins p.1)).sum
      let itemArea :=
        (byBin.map (fun p => ((p.2.map fun plc => plc.width_mm * plc.height_mm)).sum)).sum
      let waste := max 0 (usedArea - itemArea)
      let wp := if 0 < usedArea then waste / usedArea * 100 else 0
      Option.some
        { used := byBin.length
          waste := waste
          wastePercent := wp
          byBin := byBin
          placed := (byBin.map (fun p => p.2.length)).sum }

/-! ## Incumbent comparison (packing.py lines 509-518) -/

structure Cand where
  used : ℕ
  waste : ℚ
  wastePercent : ℚ
  byBin : List (ℕ × List Placement)
  meta : List (ℤ × RectMeta)

/-- Python tuple `<` on `(used_bins_count, waste_area)`. -/
def lexLtNQ (a b : ℕ × ℚ) : Bool :=
  decide (a.1 < b.1) || (decide (a.1 = b.1) && decide (a.2 < b.2))

/-- Python tuple `<` on `(waste_area, used_bins_count)`. -/
def lexLtQN (a b : ℚ × ℕ) : Bool :=
  decide (a.1 < b.1) || (decide (a.1 = b.1) && decide (a.2 < b.2))

def betterCand (objective : Objective) (cand best : Cand) : Bool :=
  match objective with
  | Objective.min_sheets => lexLtNQ (cand.used, cand.waste) (best.used, best.waste)
  | Objective.min_waste => lexLtQN (cand.waste, cand.used) (best.waste, best.used)

/-- The incumbent-update step of the restart loop. -/
def update_best (objective : Objective) (best : Option Cand) (cand : Cand) :
    Option Cand :=
  match best with
  | Option.none => Option.some cand
  | Option.some b => if betterCand objective cand b then Option.some cand
      else Option.some b

/-! ## Guillotine-mode candidate filter (packing.py lines 494-507) -/

/-- `rects_by_bin.setdefault(idx, []).append(grect)` over all packed rects. -/
def addGRect (acc : List (ℕ × List GRect)) (idx : ℕ) (g : GRect) :
    List (ℕ × List GRect) :=
  match acc with
  | [] => [(idx, [g])]
  | (j, gs) :: rest =>
      if j = idx then (j, gs ++ [g]) :: rest else (j, gs) :: addGRect rest idx g

def groupGRects : List PackedRect → List (ℕ × List GRect) → List (ℕ × List GRect)
  | [], acc => acc
  | r :: rest, acc =>
      groupGRects rest (addGRect acc r.bin_index (GRect.mk r.x_int r.y_int r.w_int r.h_int))

/-- Check each group against its bin box; `some false` on the first
violating bin (the source breaks there), `none` if `bins[idx]` would raise. -/
def checkGroups (bins : List BinMeta) : List (ℕ × List GRect) → Option Bool
  | [] => Option.some true
  | (idx, gs) :: rest =>
      match bins.get? idx with
      | Option.none => Option.none
      | Option.some bm =>
          if is_guillotine gs 0 0 bm.bin_w_int bm.bin_h_int then checkGroups bins rest
          else Option.some false

/-! ## Search driver (`optimize`, packing.py lines 442-563) -/

/-- The environment of external collaborators: the rectpack packer (as a
deterministic function of the engine, the bins in order and the rects in
order, per the spec's packer contract), the random stream, the SVG renderer
and the wall clock (entry reading, elapsed reading at the top of each
restart iteration, and the final elapsed reading). -/
structure Env where
  oracle : Engine → List (ℤ × ℤ) → List (ℤ × ℤ × ℤ) → List PackedRect
  pick : ℕ → ℕ → ℕ
  shuffle : ℕ → List (ℤ × RectMeta) → List (ℤ × RectMeta)
  renderSvg : List Solution → String
  entryClockMs : ℤ
  elapsed : ℕ → ℕ
  endElapsed : ℕ

/-- Restart-count adaptation (packing.py lines 454-459). -/
def restarts_used (time_limit_ms restarts : ℕ) : ℕ :=
  let slice := time_limit_ms / restarts
  if slice < 30 then min restarts (max 1 (time_limit_ms / 30)) else restarts

/-- One restart iteration, lines 470-518 without the budget check:
`ok none` means the candidate was rejected (`continue`), `ok (some c)` a
feasible candidate. -/
def runIteration (oracle : Engine → List (ℤ × ℤ) → List (ℤ × ℤ × ℤ) → List PackedRect)
    (pick : ℕ → ℕ → ℕ)
    (shuffle : ℕ → List (ℤ × RectMeta) → List (ℤ × RectMeta))
    (req : OptimizeRequest) (engine : Engine) (scale : ℤ) (mode : Mode)
    (bins : List BinMeta) (usedSeed : ℤ) (i : ℕ) : Except ApiErr (Option Cand) :=
  let seed_i := splitmix64 (usedSeed + i)
  match build_instances pick shuffle req engine scale seed_i with
  | Except.error e => Except.error e
  | Except.ok built =>
      let instances := built.1
      let packed := oracle engine (bins.map fun b => (b.bin_w_int, b.bin_h_int))
        (instances.map fun p => (p.2.width_eff_int, p.2.height_eff_int, p.1))
      if packed.length < instances.length then Except.ok Option.none
      else
        match evaluate_solution bins packed instances scale with
        | Option.none => Except.error ApiErr.internal
        | Option.some ev =>
            if ev.placed < instances.length then Except.ok Option.none
            else if mode = Mode.guillotine then
              match checkGroups bins (groupGRects packed []) with
              | Option.none => Except.error ApiErr.internal
              | Option.some ok =>
                  if ok then
                    Except.ok (Option.some
                      { used := ev.used, waste := ev.waste
                        wastePercent := ev.wastePercent, byBin := ev.byBin
                        meta := instances })
                  else Except.ok Option.none
            else
              Except.ok (Option.some
                { used := ev.used, waste := ev.waste
                  wastePercent := ev.wastePercent, byBin := ev.byBin
                  meta := instances })

/-- The restart loop (lines 465-518): iteration index, remaining iteration
count, incumbent. -/
def searchGo (oracle : Engine → List (ℤ × ℤ) → List (ℤ × ℤ × ℤ) → List PackedRect)
    (pick : ℕ → ℕ → ℕ)
    (shuffle : ℕ → List (ℤ × RectMeta) → List (ℤ × RectMeta))
    (elapsed : ℕ → ℕ)
    (req : OptimizeRequest) (engine : Engine) (scale : ℤ) (mode : Mode)
    (bins : List BinMeta) (usedSeed : ℤ) (timeLimit : ℕ) (objective : Objective) :
    ℕ → ℕ → Option Cand → Except ApiErr (Option Cand)
  | _, 0, best => Except.ok best
  | i, rem + 1, best =>
      if timeLimit < elapsed i then Except.error ApiErr.timeout
      else
        match runIteration oracle pick shuffle req engine scale mode bins usedSeed i with
        | Except.error e => Except.error e
        | Except.ok Option.none =>
            searchGo oracle pick shuffle elapsed req engine scale mode bins usedSeed
              timeLimit objective (i + 1) rem best
        | Except.ok (Option.some cand) =>
            searchGo oracle pick shuffle elapsed req engine scale mode bins usedSeed
              timeLimit objective (i + 1) rem (update_best objective best cand)

/-- Response assembly (lines 525-537); `bins[bin_index]` is always in range
here, the out-of-range case is an internal error as in `evalGo`. -/
def buildSolutions (bins : List BinMeta) (trim : Trim) :
    List (ℕ × List Placement) → Option (List Solution)
  | [] => Option.some []
  | (idx, ps) :: rest =>
      match bins.get? idx with
      | Option.none => Option.none
      | Option.some bm =>
          match buildSolutions bins trim rest with
          | Option.none => Option.none
          | Option.some sols =>
              Option.some
                ({ stock_id := bm.stock_id, index := bm.index
                   width_mm := bm.width_mm, height_mm := bm.height_mm
                   trim_mm := trim, placements := ps } :: sols)

/-- `optimize` (packing.py lines 442-563). -/
def optimize (env : Env) (req : OptimizeRequest) : Except ApiErr OptimizeResponse :=
  let scale := resolveScale req.params.unit_scale
  match resolve_mode_engine req with
  | Except.error e => Except.error e
  | Except.ok me =>
      let mode := me.1
      let engine := me.2
      match validate_request req scale with
      | Except.error e => Except.error e
      | Except.ok _ =>
          let bins := build_bins req scale
          match validate_fit req.params.spacing_mm scale bins req.items with
          | Except.error e => Except.error e
          | Except.ok _ =>
              let timeLimit := req.params.time_limit_ms
              let ru := restarts_used timeLimit req.params.restarts
              let usedSeed := resolveSeed req.params.seed env.entryClockMs
              match searchGo env.oracle env.pick env.shuffle env.elapsed req engine
                  scale mode bins usedSeed timeLimit req.params.objective 0 ru
                  Option.none with
              | Except.error e => Except.error e
              | Except.ok Option.none =>
                  Except.error (ApiErr.constraint "Unable to place all items with provided stock")
              | Except.ok (Option.some best) =>
                  match buildSolutions bins req.params.trim_mm best.byBin with
                  | Option.none => Except.error ApiErr.internal
                  | Option.some sols =>
                      Except.ok
                        { status := "ok"
                          summary :=
                            { mode := mode
                              objective := req.params.objective
                              used_stock_count := best.used
                              total_waste_area_mm2 := best.waste
                              waste_percent := best.wastePercent
                              time_ms := env.endElapsed
                              restarts_used := ru
                              seed := usedSeed
                              engine :=
                                { packer := engine.packer
                                  bin_select := engine.bin_select
                                  sort := engine.sort } }
                          solutions := sols
                          artifacts := { svg := env.renderSvg sols } }

/-! ## Result-inspection helpers for closed statements -/

def respIsOk : Except ApiErr OptimizeResponse → Bool
  | Except.ok _ => true
  | Except.error _ => false

def respSeed : Except ApiErr OptimizeResponse → Option ℤ
  | Except.ok r => Option.some r.summary.seed
  | Except.error _ => Option.none

def respIsValidation : Except ApiErr OptimizeResponse → Bool
  | Except.error (ApiErr.validation _) => true
  | _ => false

/-- Equality of two results up to the `time_ms` field of a successful
summary; `false` unless both are successful. -/
def respEqModuloTime : Except ApiErr OptimizeResponse →
    Except ApiErr OptimizeResponse → Bool
  | Except.ok r1, Except.ok r2 =>
      decide (r1.summary = { r2.summary with time_ms := r1.summary.time_ms }) &&
      decide (r1.solutions = r2.solutions) &&
      decide (r1.artifacts = r2.artifacts) &&
      decide (r1.status = r2.status)
  | _, _ => false

/-! ## Concrete inputs used by witnesses and counterexamples -/

/-- A packer that puts every submitted rect at the origin of bin 0 — the
behaviour of any packer on a single rect, which is all these concrete
requests submit. -/
def originOracle : Engine → List (ℤ × ℤ) → List (ℤ × ℤ × ℤ) → List PackedRect :=
  fun _ _ rects => rects.map fun r =>
    { bin_index := 0, x_int := 0, y_int := 0, w_int := r.1, h_int := r.2.1
      rid := r.2.2 }

def envBase : Env :=
  { oracle := originOracle
    pick := fun _ _ => 0
    shuffle := fun _ l => l
    renderSvg := fun _ => "svg"
    entryClockMs := 777
    elapsed := fun _ => 0
    endElapsed := 7 }

def stockS : Stock := { id := "S", width_mm := 10, height_mm := 10, qty := 1 }

def itemA : Item :=
  { id := "A", width_mm := 4, height_mm := 4, qty := 1
    rotation := Rotation.forbid, pattern_direction := PatternDir.none }

def trimZero : Trim := { left := 0, right := 0, top := 0, bottom := 0 }

def paramsBase : Params :=
  { mode := Option.none
    spacing_mm := 0
    trim_mm := trimZero
    time_limit_ms := 500
    restarts := 1
    objective := Objective.min_waste
    seed := Option.some 5
    engine := Option.none
    unit_scale := Option.some 1 }

def reqBase : OptimizeRequest :=
  { units := "mm", params := paramsBase, stock := [stockS], items := [itemA] }

/-- Same request with two restarts, for the timeout counterexample. -/
def reqTimeout : OptimizeRequest :=
  { reqBase with params := { paramsBase with restarts := 2 } }

/-- Environment whose clock exceeds the budget from the second restart
iteration on. -/
def envTimeout : Env :=
  { envBase with elapsed := fun i => if i = 0 then 0 else 600 }

/-- Same machine environment as `envBase` but a different clock. -/
def envAlt : Env := { envBase with elapsed := fun _ => 1, endElapsed := 9 }

/-- Same machine environment as `envBase` but a different entry wall clock. -/
def envClock888 : Env := { envBase with entryClockMs := 888 }

/-- Request with a provided, but zero, seed. -/
def reqSeed0 : OptimizeRequest :=
  { reqBase with params := { paramsBase with seed := Option.some 0 } }

/-- Request with a provided negative unit_scale. -/
def reqNegScale : OptimizeRequest :=
  { reqBase with params := { paramsBase with unit_scale := Option.some (-5) } }

/-- Request with a provided zero unit_scale. -/
def reqZeroScale : OptimizeRequest :=
  { reqBase with params := { paramsBase with unit_scale := Option.some 0 } }

/-- The engine triple that `_resolve_mode_engine` produces for a request
with no engine override and default mode. -/
def engineDefault : Engine :=
  { packer := PackerKind.guillotine, bin_select := BinSelectKind.best_fit
    sort := SortKind.area_desc }

def respIsTimeout : Except ApiErr OptimizeResponse → Bool
  | Except.error ApiErr.timeout => true
  | _ => false

def iterIsFeasible : Except ApiErr (Option Cand) → Bool
  | Except.ok (Option.some _) => true
  | _ => false

/-! ## Spec-side definitions used in claim statements -/

/-- The strict lexicographic key order of the spec's incumbent rule:
`(used_stock_count, waste_area)` for min_sheets, `(waste_area,
used_stock_count)` for min_waste. -/
def keyLtSpec (objective : Objective) (cand b : Cand) : Prop :=
  match objective with
  | Objective.min_sheets =>
      cand.used < b.used ∨ (cand.used = b.used ∧ cand.waste < b.waste)
  | Objective.min_waste =>
      cand.waste < b.waste ∨ (cand.waste = b.waste ∧ cand.used < b.used)

instance (objective : Objective) (cand b : Cand) :
    Decidable (keyLtSpec objective cand b) := by
  unfold keyLtSpec
  cases objective
  · exact inferInstance
  · exact inferInstance

/-- The spec's guillotine predicate `G(R, x0, y0, w, h)` (spec section 4.8),
written as an inductive characterization to compare with `is_guillotine`. -/
inductive GSpec : List GRect → ℤ → ℤ → ℤ → ℤ → Prop where
  | base (rects : List GRect) (x0 y0 w h : ℤ) :
      rects.length ≤ 1 → GSpec rects x0 y0 w h
  | vcut (rects : List GRect) (x0 y0 w h x : ℤ) :
      (∃ r ∈ rects, x = r.x ∨ x = r.x + r.w) →
      x0 < x → x < x0 + w →
      (∀ r ∈ rects, ¬(r.x < x ∧ x < r.x + r.w)) →
      GSpec (rects.filter fun r => decide (r.x + r.w ≤ x)) x0 y0 (x - x0) h →
      GSpec (rects.filter fun r => decide (x ≤ r.x)) x y0 (x0 + w - x) h →
      GSpec rects x0 y0 w h
  | hcut (rects : List GRect) (x0 y0 w h y : ℤ) :
      (∃ r ∈ rects, y = r.y ∨ y = r.y + r.h) →
      y0 < y → y < y0 + h →
      (∀ r ∈ rects, ¬(r.y < y ∧ y < r.y + r.h)) →
      GSpec (rects.filter fun r => decide (r.y + r.h ≤ y)) x0 y0 w (y - y0) →
      GSpec (rects.filter fun r => decide (y ≤ r.y)) x0 y w (y0 + h - y) →
      GSpec rects x0 y0 w h

/-- The packed rects that carry a known rect id — exactly those that
produce a placement in `_evaluate_solution`. -/
def keptRects (meta : List (ℤ × RectMeta)) (rects : List PackedRect) :
    List PackedRect :=
  rects.filter fun r => (lookupMeta meta r.rid).isSome

/-- The item area one packed rect contributes: `width_mm * height_mm` of
its metadata. -/
def metaItemArea (meta : List (ℤ × RectMeta)) (r : PackedRect) : ℚ :=
  match lookupMeta meta r.rid with
  | Option.none => 0
  | Option.some m => m.width_mm * m.height_mm

/-- Spec-side `used_area`: Σ usable_w_mm × usable_h_mm over exactly the
distinct bins holding at least one placement. -/
def specUsedArea (bins : List BinMeta) (meta : List (ℤ × RectMeta))
    (rects : List PackedRect) : ℚ :=
  (((keptRects meta rects).map fun r => r.bin_index).toFinset).sum
    fun k => binUsableArea bins k

/-- Spec-side `item_area`: Σ width_mm × height_mm over all placements. -/
def specItemArea (meta : List (ℤ × RectMeta)) (rects : List PackedRect) : ℚ :=
  ((keptRects meta rects).map fun r => metaItemArea meta r).sum

/-! # Theorems -/

/-! ## Claim C3: the quantizer rounding policy -/

/-- C3 counterexample: the claim says `_mm_to_int` rounds half away from
zero; at `x_mm = 0.5`, `scale = 1` (both exactly representable as floats,
so float and rational arithmetic agree) the code returns `round(0.5) = 0`
while round-half-away-from-zero gives `1`. -/
theorem claim_c3_counterexample :
    mm_to_int (1/2) 1 = 0 ∧
    round_half_away_from_zero ((1/2 : ℚ) * ((1 : ℤ) : ℚ)) = 1 ∧
    mm_to_int (1/2) 1 ≠ round_half_away_from_zero ((1/2 : ℚ) * ((1 : ℤ) : ℚ)) := by
  refine ⟨?_, ?_, ?_⟩ <;> with_unfolding_all decide

/-- C3 amended: `_mm_to_int(x_mm, scale)` implements round half to EVEN
(CPython's `round` on floats): the result is within one half of
`x_mm * scale`, ties (scaled fractional part exactly one half) round to an
even integer, and away from ties the result is the unique nearest
integer. -/
theorem claim_c3_amended (x : ℚ) (s : ℤ) :
    |(mm_to_int x s : ℚ) - x * s| ≤ 1/2 ∧
    (Int.fract (x * (s : ℚ)) = 1/2 → mm_to_int x s % 2 = 0) ∧
    (Int.fract (x * (s : ℚ)) ≠ 1/2 → |(mm_to_int x s : ℚ) - x * s| < 1/2) := by
  have h0 : (0 : ℚ) ≤ Int.fract (x * (s : ℚ)) := Int.fract_nonneg _
  have h1 : Int.fract (x * (s : ℚ)) < 1 := Int.fract_lt_one _
  have hfr : Int.fract (x * (s : ℚ)) = x * (s : ℚ) - (⌊x * (s : ℚ)⌋ : ℚ) := rfl
  have hfl : ((⌊x * (s : ℚ)⌋ : ℤ) : ℚ) ≤ x * (s : ℚ) := Int.floor_le _
  simp only [mm_to_int, pythonRound]
  rw [hfr] at h0 h1
  split_ifs with hd1 hd2 hpar
  · refine ⟨?_, ?_, ?_⟩
    · rw [abs_sub_comm, abs_of_nonneg (by linarith)]
      linarith
    · intro hh
      rw [hfr] at hh
      linarith
    · intro _
      rw [abs_sub_comm, abs_of_nonneg (by linarith)]
      linarith
  · refine ⟨?_, ?_, ?_⟩
    · push_cast
      rw [abs_of_nonneg (by linarith)]
      linarith
    · intro hh
      rw [hfr] at hh
      linarith
    · intro _
      push_cast
      rw [abs_of_nonneg (by linarith)]
      linarith
  · have hhalf : x * (s : ℚ) - (⌊x * (s : ℚ)⌋ : ℚ) = 1/2 := by linarith
    refine ⟨?_, ?_, ?_⟩
    · rw [abs_sub_comm, abs_of_nonneg (by linarith)]
      linarith
    · intro _
      exact hpar
    · intro hh
      rw [hfr] at hh
      exact absurd hhalf hh
  · have hhalf : x * (s : ℚ) - (⌊x * (s : ℚ)⌋ : ℚ) = 1/2 := by linarith
    refine ⟨?_, ?_, ?_⟩
    · push_cast
      rw [abs_of_nonneg (by linarith)]
      linarith
    · intro _
      omega
    · intro hh
      rw [hfr] at hh
      exact absurd hhalf hh

/-- C3 witness: the amended theorem applied at `x = 3/2`, `scale = 1`,
whose scaled value is a tie: the result is even. -/
theorem claim_c3_witness : mm_to_int (3/2) 1 % 2 = 0 :=
  (claim_c3_amended (3/2) 1).2.1 (by with_unfolding_all decide)

/-! ## Claim C6: incumbent selection -/

/-- C6: in the restart loop the first feasible candidate becomes the
incumbent (`update_best` of an empty incumbent), and a later feasible
candidate replaces the incumbent exactly when its key pair —
`(used_stock_count, waste_area)` for min_sheets, `(waste_area,
used_stock_count)` for min_waste — is lexicographically strictly
smaller. -/
theorem claim_c6_update_best (objective : Objective) (b cand : Cand) :
    update_best objective Option.none cand = Option.some cand ∧
    update_best objective (Option.some b) cand =
      (if keyLtSpec objective cand b then Option.some cand else Option.some b) := by
  refine ⟨rfl, ?_⟩
  cases objective with
  | min_sheets =>
      simp only [update_best, betterCand, lexLtNQ, keyLtSpec]
      by_cases h : cand.used < b.used ∨ (cand.used = b.used ∧ cand.waste < b.waste)
      · rw [if_pos h, if_pos (by simpa using h)]
      · rw [if_neg h, if_neg (by simpa using h)]
  | min_waste =>
      simp only [update_best, betterCand, lexLtQN, keyLtSpec]
      by_cases h : cand.waste < b.waste ∨ (cand.waste = b.waste ∧ cand.used < b.used)
      · rw [if_pos h, if_pos (by simpa using h)]
      · rw [if_neg h, if_neg (by simpa using h)]

/-! ## Claim C7: the orientation resolver -/

/-- C7: full case analysis of `_allowed_orientations` for positive
dimensions: square items get the single non-rotated orientation; with no
pattern the rotated orientation is appended exactly for rotation allow_90;
along_width keeps the non-rotated orientation when `w > h` and otherwise
requires rotation and returns only the rotated orientation, failing
validation when rotation is forbidden; along_height is symmetric; every
successful result is non-empty. -/
theorem claim_c7_allowed_orientations (w h : ℚ) (rot : Rotation)
    (pat : PatternDir) (hw : 0 < w) (hh : 0 < h) :
    (w = h → allowed_orientations w h rot pat = Except.ok [(w, h, false)]) ∧
    (w ≠ h → pat = PatternDir.none →
      allowed_orientations w h rot pat =
        Except.ok ((w, h, false) ::
          (if rot = Rotation.allow_90 then [(h, w, true)] else []))) ∧
    (w ≠ h → pat = PatternDir.along_width → h < w →
      allowed_orientations w h rot pat = Except.ok [(w, h, false)]) ∧
    (w ≠ h → pat = PatternDir.along_width → w < h → rot = Rotation.allow_90 →
      allowed_orientations w h rot pat = Except.ok [(h, w, true)]) ∧
    (w ≠ h → pat = PatternDir.along_width → w < h → rot = Rotation.forbid →
      ∃ msg, allowed_orientations w h rot pat =
        Except.error (ApiErr.validation msg)) ∧
    (w ≠ h → pat = PatternDir.along_height → w < h →
      allowed_orientations w h rot pat = Except.ok [(w, h, false)]) ∧
    (w ≠ h → pat = PatternDir.along_height → h < w → rot = Rotation.allow_90 →
      allowed_orientations w h rot pat = Except.ok [(h, w, true)]) ∧
    (w ≠ h → pat = PatternDir.along_height → h < w → rot = Rotation.forbid →
      ∃ msg, allowed_orientations w h rot pat =
        Except.error (ApiErr.validation msg)) ∧
    (∀ l, allowed_orientations w h rot pat = Except.ok l → l ≠ []) := by
  refine ⟨?_, ?_, ?_, ?_, ?_, ?_, ?_, ?_, ?_⟩
  · intro hwh
    simp [allowed_orientations, hwh]
  · intro hwh hp
    subst hp
    simp [allowed_orientations, hwh]
  · intro hwh hp hlt
    subst hp
    simp [allowed_orientations, hwh, le_of_lt hlt]
  · intro hwh hp hlt hr
    subst hp
    subst hr
    simp [allowed_orientations, hwh, not_le.mpr hlt]
  · intro hwh hp hlt hr
    subst hp
    subst hr
    refine ⟨"pattern_direction requires rotation but rotation is forbidden", ?_⟩
    simp [allowed_orientations, hwh, not_le.mpr hlt]
  · intro hwh hp hlt
    subst hp
    simp [allowed_orientations, hwh, not_le.mpr hlt]
  · intro hwh hp hlt hr
    subst hp
    subst hr
    simp [allowed_orientations, hwh, le_of_lt hlt]
  · intro hwh hp hlt hr
    subst hp
    subst hr
    refine ⟨"pattern_direction requires rotation but rotation is forbidden", ?_⟩
    simp [allowed_orientations, hwh, le_of_lt hlt]
  · intro l hl
    by_cases hwh : w = h
    · simp [allowed_orientations, hwh] at hl
      simp [← hl]
    · cases pat with
      | none =>
          cases rot <;> simp [allowed_orientations, hwh] at hl <;> simp [← hl]
      | along_width =>
          by_cases hle : h ≤ w
          · cases rot <;> simp [allowed_orientations, hwh, hle] at hl <;> simp [← hl]
          · cases rot with
            | forbid => simp [allowed_orientations, hwh, hle] at hl
            | allow_90 => simp [allowed_orientations, hwh, hle] at hl; simp [← hl]
      | along_height =>
          by_cases hle : h ≤ w
          · cases rot with
            | forbid => simp [allowed_orientations, hwh, hle] at hl
            | allow_90 => simp [allowed_orientations, hwh, hle] at hl; simp [← hl]
          · cases rot <;> simp [allowed_orientations, hwh, hle] at hl <;> simp [← hl]

/-- C7 witness: the theorem applied at `(w, h) = (2, 3)` with rotation
forbidden and pattern along_width, which must fail validation. -/
theorem claim_c7_witness :
    ∃ msg, allowed_orientations 2 3 Rotation.forbid PatternDir.along_width =
      Except.error (ApiErr.validation msg) :=
  (claim_c7_allowed_orientations 2 3 Rotation.forbid PatternDir.along_width
    (by norm_num) (by norm_num)).2.2.2.2.1 (by norm_num) rfl (by norm_num) rfl

/-! ## Claims C10 and C5: the guillotine checker -/

theorem list_any_congr {α : Type} {l : List α} {f g : α → Bool}
    (h : ∀ x ∈ l, f x = g x) : l.any f = l.any g := by
  induction l with
  | nil => rfl
  | cons a l ih =>
      simp only [List.any_cons]
      rw [h a (List.mem_cons_self a l), ih fun x hx => h x (List.mem_cons_of_mem a hx)]

/-- Fuel stability: once the fuel exceeds the `w.toNat + h.toNat` measure,
`is_guillotine_fuel` no longer depends on it — every admissible cut is
strictly interior, so each recursive call strictly decreases the
measure. -/
theorem is_guillotine_fuel_stable :
    ∀ (m : ℕ) (w h : ℤ), w.toNat + h.toNat = m →
    ∀ (fuel fuel' : ℕ), m < fuel → m < fuel' →
    ∀ (rects : List GRect) (x0 y0 : ℤ),
    is_guillotine_fuel fuel rects x0 y0 w h =
      is_guillotine_fuel fuel' rects x0 y0 w h := by
  intro m
  induction m using Nat.strong_induction_on with
  | _ m ih =>
    intro w h hm fuel fuel' hf hf' rects x0 y0
    obtain ⟨f, rfl⟩ : ∃ f, fuel = f + 1 := ⟨fuel - 1, by omega⟩
    obtain ⟨f', rfl⟩ : ∃ g, fuel' = g + 1 := ⟨fuel' - 1, by omega⟩
    simp only [is_guillotine_fuel]
    by_cases hlen : rects.length ≤ 1
    · simp [hlen]
    · simp only [if_neg hlen]
      have hx : ∀ pf pf' : ℕ, m ≤ pf → m ≤ pf' →
          (∀ x ∈ rects.map (fun r => r.x) ++ rects.map (fun r => r.x + r.w),
          (decide (x0 < x) && decide (x < x0 + w) &&
            !(rects.any fun r => decide (r.x < x) && decide (x < r.x + r.w)) &&
            is_guillotine_fuel pf (rects.filter fun r => decide (r.x + r.w ≤ x))
              x0 y0 (x - x0) h &&
            is_guillotine_fuel pf (rects.filter fun r => decide (x ≤ r.x))
              x y0 (x0 + w - x) h) =
          (decide (x0 < x) && decide (x < x0 + w) &&
            !(rects.any fun r => decide (r.x < x) && decide (x < r.x + r.w)) &&
            is_guillotine_fuel pf' (rects.filter fun r => decide (r.x + r.w ≤ x))
              x0 y0 (x - x0) h &&
            is_guillotine_fuel pf' (rects.filter fun r => decide (x ≤ r.x))
              x y0 (x0 + w - x) h)) := by
        intro pf pf' hpf hpf' x _
        by_cases h1 : x0 < x
        · by_cases h2 : x < x0 + w
          · have hm1 : (x - x0).toNat + h.toNat < m := by omega
            have hm2 : (x0 + w - x).toNat + h.toNat < m := by omega
            rw [ih ((x - x0).toNat + h.toNat) hm1 (x - x0) h rfl pf pf'
              (by omega) (by omega)]
            rw [ih ((x0 + w - x).toNat + h.toNat) hm2 (x0 + w - x) h rfl pf pf'
              (by omega) (by omega)]
          · simp [h2]
        · simp [h1]
      have hy : ∀ pf pf' : ℕ, m ≤ pf → m ≤ pf' →
          (∀ y ∈ rects.map (fun r => r.y) ++ rects.map (fun r => r.y + r.h),
          (decide (y0 < y) && decide (y < y0 + h) &&
            !(rects.any fun r => decide (r.y < y) && decide (y < r.y + r.h)) &&
            is_guillotine_fuel pf (rects.filter fun r => decide (r.y + r.h ≤ y))
              x0 y0 w (y - y0) &&
            is_guillotine_fuel pf (rects.filter fun r => decide (y ≤ r.y))
              x0 y w (y0 + h - y)) =
          (decide (y0 < y) && decide (y < y0 + h) &&
            !(rects.any fun r => decide (r.y < y) && decide (y < r.y + r.h)) &&
            is_guillotine_fuel pf' (rects.filter fun r => decide (r.y + r.h ≤ y))
              x0 y0 w (y - y0) &&
            is_guillotine_fuel pf' (rects.filter fun r => decide (y ≤ r.y))
              x0 y w (y0 + h - y))) := by
        intro pf pf' hpf hpf' y _
        by_cases h1 : y0 < y
        · by_cases h2 : y < y0 + h
          · have hm1 : w.toNat + (y - y0).toNat < m := by omega
            have hm2 : w.toNat + (y0 + h - y).toNat < m := by omega
            rw [ih (w.toNat + (y - y0).toNat) hm1 w (y - y0) rfl pf pf'
              (by omega) (by omega)]
            rw [ih (w.toNat + (y0 + h - y).toNat) hm2 w (y0 + h - y) rfl pf pf'
              (by omega) (by omega)]
          · simp [h2]
        · simp [h1]
      rw [list_any_congr (hx f f' (by omega) (by omega)),
        list_any_congr (hy f f' (by omega) (by omega))]

/-- C10: `_is_guillotine` terminates; formally, the fuel-indexed embedding
of the recursion stabilizes as soon as the fuel exceeds the well-founded
measure `w.toNat + h.toNat` (width plus height of the box), because every
candidate cut is strictly interior and so strictly decreases that measure
in each recursive call. -/
theorem claim_c10_termination (rects : List GRect) (x0 y0 w h : ℤ) (fuel : ℕ)
    (hf : w.toNat + h.toNat < fuel) :
    is_guillotine_fuel fuel rects x0 y0 w h = is_guillotine rects x0 y0 w h :=
  is_guillotine_fuel_stable (w.toNat + h.toNat) w h rfl fuel
    (w.toNat + h.toNat + 1) hf (by omega) rects x0 y0

/-- C10 witness: the termination theorem applied to a concrete two-rect
layout with more fuel than the measure requires. -/
theorem claim_c10_witness :
    is_guillotine_fuel 9 [GRect.mk 0 0 1 1, GRect.mk 1 0 1 1] 0 0 2 1 =
      is_guillotine [GRect.mk 0 0 1 1, GRect.mk 1 0 1 1] 0 0 2 1 :=
  claim_c10_termination [GRect.mk 0 0 1 1, GRect.mk 1 0 1 1] 0 0 2 1 9
    (by decide)

theorem gspec_of_fuel :
    ∀ (fuel : ℕ) (rects : List GRect) (x0 y0 w h : ℤ),
    is_guillotine_fuel fuel rects x0 y0 w h = true → GSpec rects x0 y0 w h := by
  intro fuel
  induction fuel with
  | zero =>
      intro rects x0 y0 w h hT
      simp [is_guillotine_fuel] at hT
  | succ f ih =>
      intro rects x0 y0 w h hT
      by_cases hlen : rects.length ≤ 1
      · exact GSpec.base rects x0 y0 w h hlen
      · simp only [is_guillotine_fuel, if_neg hlen, Bool.or_eq_true, List.any_eq_true,
          Bool.and_eq_true, decide_eq_true_eq, Bool.not_eq_true', List.any_eq_false,
          Bool.and_eq_false_iff, decide_eq_false_iff_not] at hT
        rcases hT with ⟨x, hx, ⟨⟨⟨hlo, hhi⟩, hint⟩, hrec1⟩, hrec2⟩ |
          ⟨y, hy, ⟨⟨⟨hlo, hhi⟩, hint⟩, hrec1⟩, hrec2⟩
        · have hmem : ∃ r ∈ rects, x = r.x ∨ x = r.x + r.w := by
            rw [List.mem_append] at hx
            rcases hx with hx | hx
            · obtain ⟨r, hr, heq⟩ := List.mem_map.mp hx
              exact ⟨r, hr, Or.inl heq.symm⟩
            · obtain ⟨r, hr, heq⟩ := List.mem_map.mp hx
              exact ⟨r, hr, Or.inr heq.symm⟩
          exact GSpec.vcut rects x0 y0 w h x hmem hlo hhi hint
            (ih _ _ _ _ _ hrec1) (ih _ _ _ _ _ hrec2)
        · have hmem : ∃ r ∈ rects, y = r.y ∨ y = r.y + r.h := by
            rw [List.mem_append] at hy
            rcases hy with hy | hy
            · obtain ⟨r, hr, heq⟩ := List.mem_map.mp hy
              exact ⟨r, hr, Or.inl heq.symm⟩
            · obtain ⟨r, hr, heq⟩ := List.mem_map.mp hy
              exact ⟨r, hr, Or.inr heq.symm⟩
          exact GSpec.hcut rects x0 y0 w h y hmem hlo hhi hint
            (ih _ _ _ _ _ hrec1) (ih _ _ _ _ _ hrec2)

theorem fuel_of_gspec {rects : List GRect} {x0 y0 w h : ℤ}
    (hg : GSpec rects x0 y0 w h) :
    is_guillotine_fuel (w.toNat + h.toNat + 1) rects x0 y0 w h = true := by
  induction hg with
  | base rects x0 y0 w h hlen =>
      simp [is_guillotine_fuel, hlen]
  | vcut rects x0 y0 w h x hmem hlo hhi hint hleft hright ihl ihr =>
      simp only [is_guillotine_fuel]
      by_cases hlen : rects.length ≤ 1
      · simp [hlen]
      · rw [if_neg hlen]
        rw [Bool.or_eq_true]
        left
        apply List.any_eq_true.mpr
        refine ⟨x, ?_, ?_⟩
        · obtain ⟨r, hr, hxe⟩ := hmem
          rw [List.mem_append]
          rcases hxe with hxe | hxe
          · exact Or.inl (List.mem_map.mpr ⟨r, hr, hxe.symm⟩)
          · exact Or.inr (List.mem_map.mpr ⟨r, hr, hxe.symm⟩)
        · simp only [Bool.and_eq_true, decide_eq_true_eq, Bool.not_eq_true',
            List.any_eq_false, Bool.and_eq_false_iff, decide_eq_false_iff_not]
          refine ⟨⟨⟨⟨hlo, hhi⟩, hint⟩, ?_⟩, ?_⟩
          · rw [is_guillotine_fuel_stable ((x - x0).toNat + h.toNat) (x - x0) h rfl
              (w.toNat + h.toNat) ((x - x0).toNat + h.toNat + 1) (by omega) (by omega)]
            exact ihl
          · rw [is_guillotine_fuel_stable ((x0 + w - x).toNat + h.toNat) (x0 + w - x) h
              rfl (w.toNat + h.toNat) ((x0 + w - x).toNat + h.toNat + 1) (by omega)
              (by omega)]
            exact ihr
  | hcut rects x0 y0 w h y hmem hlo hhi hint hbot htop ihb iht =>
      simp only [is_guillotine_fuel]
      by_cases hlen : rects.length ≤ 1
      · simp [hlen]
      · rw [if_neg hlen]
        rw [Bool.or_eq_true]
        right
        apply List.any_eq_true.mpr
        refine ⟨y, ?_, ?_⟩
        · obtain ⟨r, hr, hye⟩ := hmem
          rw [List.mem_append]
          rcases hye with hye | hye
          · exact Or.inl (List.mem_map.mpr ⟨r, hr, hye.symm⟩)
          · exact Or.inr (List.mem_map.mpr ⟨r, hr, hye.symm⟩)
        · simp only [Bool.and_eq_true, decide_eq_true_eq, Bool.not_eq_true',
            List.any_eq_false, Bool.and_eq_false_iff, decide_eq_false_iff_not]
          refine ⟨⟨⟨⟨hlo, hhi⟩, hint⟩, ?_⟩, ?_⟩
          · rw [is_guillotine_fuel_stable (w.toNat + (y - y0).toNat) w (y - y0) rfl
              (w.toNat + h.toNat) (w.toNat + (y - y0).toNat + 1) (by omega) (by omega)]
            exact ihb
          · rw [is_guillotine_fuel_stable (w.toNat + (y0 + h - y).toNat) w (y0 + h - y)
              rfl (w.toNat + h.toNat) (w.toNat + (y0 + h - y).toNat + 1) (by omega)
              (by omega)]
            exact iht

/-- C5: the guillotine checker returns true exactly on the recursive
characterization of spec section 4.8: trivially for at most one rectangle,
or when a vertical cut coordinate drawn from the rectangle edges, strictly
interior and crossing no rectangle, splits the instance into two
recursively guillotine-separable halves, or symmetrically for a horizontal
cut. -/
theorem claim_c5_is_guillotine_iff (rects : List GRect) (x0 y0 w h : ℤ) :
    is_guillotine rects x0 y0 w h = true ↔ GSpec rects x0 y0 w h :=
  ⟨fun hT => gspec_of_fuel (w.toNat + h.toNat + 1) rects x0 y0 w h hT,
   fun hg => fuel_of_gspec hg⟩

/-! ## Claim C8: the evaluator -/

theorem addToBin_fst (acc : List (ℕ × List Placement)) (idx : ℕ) (p : Placement) :
    (addToBin acc idx p).map Prod.fst =
      if idx ∈ acc.map Prod.fst then acc.map Prod.fst
      else acc.map Prod.fst ++ [idx] := by
  induction acc with
  | nil => simp [addToBin]
  | cons a rest ih =>
      obtain ⟨j, ps⟩ := a
      by_cases hj : j = idx
      · subst hj
        simp [addToBin]
      · simp only [addToBin, if_neg hj, List.map_cons, ih]
        have hne : idx ≠ j := fun h => hj h.symm
        by_cases hmem : idx ∈ rest.map Prod.fst
        · simp [hmem, List.mem_cons, hne]
        · simp [hmem, List.mem_cons, hne]

theorem addToBin_mem_fst (acc : List (ℕ × List Placement)) (idx : ℕ) (p : Placement)
    (k : ℕ) :
    (k ∈ (addToBin acc idx p).map Prod.fst ↔ k ∈ acc.map Prod.fst ∨ k = idx) := by
  rw [addToBin_fst]
  split_ifs with h
  · constructor
    · exact Or.inl
    · rintro (hk | rfl)
      · exact hk
      · exact h
  · simp [List.mem_append]

theorem addToBin_nodup (acc : List (ℕ × List Placement)) (idx : ℕ) (p : Placement)
    (h : (acc.map Prod.fst).Nodup) : ((addToBin acc idx p).map Prod.fst).Nodup := by
  rw [addToBin_fst]
  split_ifs with hmem
  · exact h
  · simp [List.nodup_append, h, hmem]

theorem addToBin_itemSum (acc : List (ℕ × List Placement)) (idx : ℕ) (p : Placement) :
    ((addToBin acc idx p).map fun q =>
      ((q.2.map fun plc => plc.width_mm * plc.height_mm)).sum).sum =
    ((acc.map fun q =>
      ((q.2.map fun plc => plc.width_mm * plc.height_mm)).sum).sum) +
      p.width_mm * p.height_mm := by
  induction acc with
  | nil => simp [addToBin]
  | cons a rest ih =>
      obtain ⟨j, ps⟩ := a
      by_cases hj : j = idx
      · subst hj
        simp only [addToBin, if_pos rfl, List.map_cons, List.sum_cons,
          List.map_append, List.sum_append]
        simp
        ring
      · simp only [addToBin, if_neg hj, List.map_cons, List.sum_cons, ih]
        ring

theorem addToBin_placedSum (acc : List (ℕ × List Placement)) (idx : ℕ)
    (p : Placement) :
    ((addToBin acc idx p).map fun q => q.2.length).sum =
      ((acc.map fun q => q.2.length).sum) + 1 := by
  induction acc with
  | nil => simp [addToBin]
  | cons a rest ih =>
      obtain ⟨j, ps⟩ := a
      by_cases hj : j = idx
      · subst hj
        simp [addToBin]
        omega
      · simp only [addToBin, if_neg hj, List.map_cons, List.sum_cons, ih]
        omega

theorem evalGo_spec (bins : List BinMeta) (meta : List (ℤ × RectMeta)) (scale : ℤ) :
    ∀ (rects : List PackedRect) (acc byBin : List (ℕ × List Placement)),
    evalGo bins meta scale rects acc = Option.some byBin →
    (acc.map Prod.fst).Nodup →
    ((byBin.map Prod.fst).Nodup ∧
     (∀ k, k ∈ byBin.map Prod.fst ↔ k ∈ acc.map Prod.fst ∨
        k ∈ (keptRects meta rects).map fun r => r.bin_index) ∧
     ((byBin.map fun q => ((q.2.map fun plc => plc.width_mm * plc.height_mm)).sum).sum =
       ((acc.map fun q => ((q.2.map fun plc => plc.width_mm * plc.height_mm)).sum).sum) +
         specItemArea meta rects) ∧
     ((byBin.map fun q => q.2.length).sum =
       ((acc.map fun q => q.2.length).sum) + (keptRects meta rects).length)) := by
  intro rects
  induction rects with
  | nil =>
      intro acc byBin h hnd
      simp only [evalGo, Option.some.injEq] at h
      subst h
      simp [keptRects, specItemArea, hnd]
  | cons r rest ih =>
      intro acc byBin h hnd
      cases hm : lookupMeta meta r.rid with
      | none =>
          rw [evalGo, hm] at h
          have hkept : keptRects meta (r :: rest) = keptRects meta rest := by
            simp [keptRects, List.filter_cons, hm]
          have hspec : specItemArea meta (r :: rest) = specItemArea meta rest := by
            simp [specItemArea, hkept]
          rw [hkept, hspec]
          exact ih acc byBin h hnd
      | some m =>
          cases hb : bins.get? r.bin_index with
          | none => rw [evalGo, hm, hb] at h; cases h
          | some bm =>
              rw [evalGo, hm, hb] at h
              have hkept : keptRects meta (r :: rest) = r :: keptRects meta rest := by
                simp [keptRects, List.filter_cons, hm]
              obtain ⟨hnd2, hmem2, hitem2, hplaced2⟩ :=
                ih (addToBin acc r.bin_index
                  { item_id := m.item_id
                    instance_no := m.instance_no
                    x_mm := int_to_mm r.x_int scale + bm.trim_left
                    y_mm := int_to_mm r.y_int scale + bm.trim_top
                    width_mm := m.width_mm
                    height_mm := m.height_mm
                    rotated := m.rotated
                    pattern_direction := m.pattern_direction }) byBin h
                  (addToBin_nodup acc r.bin_index _ hnd)
              refine ⟨hnd2, ?_, ?_, ?_⟩
              · intro k
                rw [hmem2 k, addToBin_mem_fst, hkept]
                simp only [List.map_cons, List.mem_cons]
                tauto
              · rw [hitem2, addToBin_itemSum]
                rw [show specItemArea meta (r :: rest) =
                    metaItemArea meta r + specItemArea meta rest by
                  simp [specItemArea, hkept]]
                have hmar : metaItemArea meta r = m.width_mm * m.height_mm := by
                  simp [metaItemArea, hm]
                rw [hmar]
                ring
              · rw [hplaced2, addToBin_placedSum, hkept]
                simp only [List.length_cons]
                omega

/-- C8: for every evaluated candidate, `_evaluate_solution` computes
`waste_area = max(0, used_area − item_area)` with `used_area` the sum of
usable areas over exactly the distinct bins holding at least one placement
and `item_area` the sum of `width_mm × height_mm` over all placements,
`waste_percent = 100 × waste_area / used_area` when `used_area > 0` and `0`
otherwise, and the placed count is the number of placements. -/
theorem claim_c8_evaluate (bins : List BinMeta) (rects : List PackedRect)
    (meta : List (ℤ × RectMeta)) (scale : ℤ) (out : EvalOut)
    (h : evaluate_solution bins rects meta scale = Option.some out) :
    out.waste = max 0 (specUsedArea bins meta rects - specItemArea meta rects) ∧
    out.wastePercent = (if 0 < specUsedArea bins meta rects
      then 100 * out.waste / specUsedArea bins meta rects else 0) ∧
    out.placed = (keptRects meta rects).length := by
  unfold evaluate_solution at h
  cases hg : evalGo bins meta scale rects [] with
  | none => rw [hg] at h; cases h
  | some byBin =>
      rw [hg] at h
      obtain ⟨hnd, hmem, hitem, hplaced⟩ :=
        evalGo_spec bins meta scale rects [] byBin hg (by simp)
      have husum : (byBin.map fun p => binUsableArea bins p.1).sum =
          specUsedArea bins meta rects := by
        have h1 : byBin.map (fun p => binUsableArea bins p.1) =
            (byBin.map Prod.fst).map (binUsableArea bins) := by
          rw [List.map_map]
          rfl
        rw [h1, ← List.sum_toFinset _ hnd]
        unfold specUsedArea
        apply Finset.sum_congr ?_ (fun _ _ => rfl)
        ext k
        rw [List.mem_toFinset, List.mem_toFinset, hmem k]
        simp
      simp only [Option.some.injEq] at h
      subst h
      simp only []
      rw [husum, hitem]
      simp only [List.map_nil, List.sum_nil, zero_add]
      refine ⟨by trivial, ?_, ?_⟩
      · split_ifs with hpos
        · ring
        · rfl
      · rw [hplaced]
        simp

/-- C8 witness: the theorem applied to a concrete evaluation — one 10×10
bin and one kept 4×4 placement: waste is `100 − 16 = 84`, waste percent
`84`, one placement. -/
theorem claim_c8_witness :
    (evaluate_solution (build_bins reqBase 1)
      [{ bin_index := 0, x_int := 0, y_int := 0, w_int := 4, h_int := 4, rid := 1 }]
      [(1, { item_id := "A", instance_no := 1, width_mm := 4, height_mm := 4
             rotated := false, pattern_direction := PatternDir.none
             width_eff_int := 4, height_eff_int := 4 })] 1).map
        (fun o => o.placed) = Option.some 1 := by
  cases hev : evaluate_solution (build_bins reqBase 1)
      [{ bin_index := 0, x_int := 0, y_int := 0, w_int := 4, h_int := 4, rid := 1 }]
      [(1, { item_id := "A", instance_no := 1, width_mm := 4, height_mm := 4
             rotated := false, pattern_direction := PatternDir.none
             width_eff_int := 4, height_eff_int := 4 })] 1 with
  | none =>
      have hsome : (evaluate_solution (build_bins reqBase 1)
          [{ bin_index := 0, x_int := 0, y_int := 0, w_int := 4, h_int := 4, rid := 1 }]
          [(1, { item_id := "A", instance_no := 1, width_mm := 4, height_mm := 4
                 rotated := false, pattern_direction := PatternDir.none
                 width_eff_int := 4, height_eff_int := 4 })] 1).isSome = true := by
        with_unfolding_all decide
      rw [hev] at hsome
      simp at hsome
  | some out =>
      obtain ⟨_, _, hplaced⟩ := claim_c8_evaluate _ _ _ _ _ hev
      have hk : (keptRects
          [((1 : ℤ),
            { item_id := "A", instance_no := 1, width_mm := 4, height_mm := 4,
              rotated := false, pattern_direction := PatternDir.none,
              width_eff_int := 4, height_eff_int := 4 })]
          [{ bin_index := 0, x_int := 0, y_int := 0, w_int := 4, h_int := 4,
             rid := 1 }]).length = 1 := by
        with_unfolding_all decide
      simp only [Option.map_some']
      rw [hplaced, hk]

/-! ## Claim C1: timeout behaviour of the restart loop -/

/-- If the restart loop returns successfully, then no budget check during
its iterations found the elapsed time over the limit — equivalently, a
tripped budget check always aborts the loop with TIMEOUT, whatever the
incumbent. -/
theorem searchGo_ok_no_trip
    (oracle : Engine → List (ℤ × ℤ) → List (ℤ × ℤ × ℤ) → List PackedRect)
    (pick : ℕ → ℕ → ℕ)
    (shuffle : ℕ → List (ℤ × RectMeta) → List (ℤ × RectMeta))
    (elapsed : ℕ → ℕ) (req : OptimizeRequest) (engine : Engine) (scale : ℤ)
    (mode : Mode) (bins : List BinMeta) (usedSeed : ℤ) (timeLimit : ℕ)
    (objective : Objective) :
    ∀ (rem i : ℕ) (best b : Option Cand),
    searchGo oracle pick shuffle elapsed req engine scale mode bins usedSeed
      timeLimit objective i rem best = Except.ok b →
    ∀ j, i ≤ j → j < i + rem → elapsed j ≤ timeLimit := by
  intro rem
  induction rem with
  | zero =>
      intro i best b _ j h1 h2
      omega
  | succ n ih =>
      intro i best b hok j h1 h2
      rw [searchGo] at hok
      by_cases ht : timeLimit < elapsed i
      · rw [if_pos ht] at hok
        cases hok
      · rw [if_neg ht] at hok
        by_cases hj : j = i
        · subst hj
          omega
        · cases hit : runIteration oracle pick shuffle req engine scale mode bins
              usedSeed i with
          | error e => rw [hit] at hok; cases hok
          | ok o =>
              rw [hit] at hok
              cases o with
              | none => exact ih (i + 1) best b hok j (by omega) (by omega)
              | some cand => exact ih (i + 1) _ b hok j (by omega) (by omega)

/-- C1 amended: the claim said a tripped budget check returns the incumbent
when one exists; in fact the check at the top of each restart iteration
raises TIMEOUT unconditionally, so a successful response is possible only
when the elapsed reading at every executed iteration was within the
budget. -/
theorem claim_c1_amended (env : Env) (req : OptimizeRequest)
    (hok : respIsOk (optimize env req) = true) :
    ∀ i < restarts_used req.params.time_limit_ms req.params.restarts,
      env.elapsed i ≤ req.params.time_limit_ms := by
  intro i hi
  simp only [optimize] at hok
  split at hok
  · simp [respIsOk] at hok
  · split at hok
    · simp [respIsOk] at hok
    · split at hok
      · simp [respIsOk] at hok
      · split at hok
        · simp [respIsOk] at hok
        · simp [respIsOk] at hok
        · rename_i heq
          exact searchGo_ok_no_trip _ _ _ _ _ _ _ _ _ _ _ _ _ _ _ _ heq i
            (by omega) (by omega)

/-- C1 witness: the amended theorem applied to the concrete base run, whose
single budget check read 0 ms against a 500 ms budget. -/
theorem claim_c1_witness : envBase.elapsed 0 ≤ reqBase.params.time_limit_ms :=
  claim_c1_amended envBase reqBase (by with_unfolding_all decide) 0
    (by with_unfolding_all decide)

/-- C1 counterexample: with two restarts, iteration 0 produces a feasible
candidate (the incumbent — third conjunct; and the same request succeeds
end-to-end under a clock that stays within budget — second conjunct), yet
when the budget check at the top of iteration 1 reads 600 ms > 500 ms the
code raises TIMEOUT instead of returning the incumbent. -/
theorem claim_c1_counterexample :
    respIsTimeout (optimize envTimeout reqTimeout) = true ∧
    respIsOk (optimize envBase reqTimeout) = true ∧
    iterIsFeasible (runIteration originOracle envTimeout.pick envTimeout.shuffle
      reqTimeout engineDefault 1 Mode.guillotine (build_bins reqTimeout 1) 5 0) =
      true := by
  refine ⟨?_, ?_, ?_⟩ <;> with_unfolding_all decide

/-! ## Claim C2: seed resolution -/

/-- A successful response reports `summary.seed = used_seed`, the resolved
base seed. -/
theorem optimize_ok_seed (env : Env) (req : OptimizeRequest)
    (r : OptimizeResponse) (h : optimize env req = Except.ok r) :
    r.summary.seed = resolveSeed req.params.seed env.entryClockMs := by
  simp only [optimize] at h
  split at h
  · cases h
  · split at h
    · cases h
    · split at h
      · cases h
      · split at h
        · cases h
        · cases h
        · split at h
          · cases h
          · cases h
            rfl

/-- C2 amended: the claim holds for a provided NONZERO seed: the base seed
is `params.seed` (so the response does not depend on the entry wall clock)
and the successful summary reports it; but Python `or` treats a provided
seed of `0` as absent, so the wall-clock fallback is also used for
`seed = 0`, not only when the seed is absent. -/
theorem claim_c2_amended (env : Env) (req : OptimizeRequest) (s : ℤ)
    (hs : req.params.seed = Option.some s) (hnz : s ≠ 0) :
    (∀ r, optimize env req = Except.ok r → r.summary.seed = s) ∧
    (∀ t, optimize { env with entryClockMs := t } req = optimize env req) := by
  have hseed : ∀ c, resolveSeed req.params.seed c = s := by
    intro c
    simp [resolveSeed, hs, hnz]
  constructor
  · intro r hr
    rw [optimize_ok_seed env req r hr, hseed]
  · intro t
    simp only [optimize]
    rw [hseed, hseed]

/-- C2 witness: the amended theorem applied to the base request (seed 5):
the entry wall clock is irrelevant to the result. -/
theorem claim_c2_witness :
    optimize { envBase with entryClockMs := 999 } reqBase =
      optimize envBase reqBase :=
  (claim_c2_amended envBase reqBase 5 rfl (by decide)).2 999

set_option maxRecDepth 8000 in
/-- C2 counterexample: `seed = 0` is provided, yet the reported
`summary.seed` is the entry wall clock (777 or 888), so the search did NOT
use `base_seed = params.seed` and the wall-clock fallback was used although
`params.seed` was present. -/
theorem claim_c2_counterexample :
    reqSeed0.params.seed = Option.some 0 ∧
    respSeed (optimize envBase reqSeed0) = Option.some 777 ∧
    respSeed (optimize envClock888 reqSeed0) = Option.some 888 := by
  refine ⟨rfl, ?_, ?_⟩ <;> with_unfolding_all decide

/-! ## Claim C9: determinism of the search -/

/-- The restart loop is a deterministic function of everything except the
clock: two runs with the same packer, random stream and request that both
return `ok` return the same incumbent, whatever their elapsed readings. -/
theorem searchGo_ok_det
    (oracle : Engine → List (ℤ × ℤ) → List (ℤ × ℤ × ℤ) → List PackedRect)
    (pick : ℕ → ℕ → ℕ)
    (shuffle : ℕ → List (ℤ × RectMeta) → List (ℤ × RectMeta))
    (e1 e2 : ℕ → ℕ) (req : OptimizeRequest) (engine : Engine) (scale : ℤ)
    (mode : Mode) (bins : List BinMeta) (usedSeed : ℤ) (timeLimit : ℕ)
    (objective : Objective) :
    ∀ (rem i : ℕ) (best b1 b2 : Option Cand),
    searchGo oracle pick shuffle e1 req engine scale mode bins usedSeed
      timeLimit objective i rem best = Except.ok b1 →
    searchGo oracle pick shuffle e2 req engine scale mode bins usedSeed
      timeLimit objective i rem best = Except.ok b2 →
    b1 = b2 := by
  intro rem
  induction rem with
  | zero =>
      intro i best b1 b2 h1 h2
      rw [searchGo] at h1 h2
      cases h1
      cases h2
      rfl
  | succ n ih =>
      intro i best b1 b2 h1 h2
      rw [searchGo] at h1 h2
      by_cases ht1 : timeLimit < e1 i
      · rw [if_pos ht1] at h1
        cases h1
      · rw [if_neg ht1] at h1
        by_cases ht2 : timeLimit < e2 i
        · rw [if_pos ht2] at h2
          cases h2
        · rw [if_neg ht2] at h2
          cases hit : runIteration oracle pick shuffle req engine scale mode bins
              usedSeed i with
          | error e =>
              rw [hit] at h1
              cases h1
          | ok o =>
              rw [hit] at h1 h2
              cases o with
              | none => exact ih (i + 1) best b1 b2 h1 h2
              | some cand => exact ih (i + 1) _ b1 b2 h1 h2

/-- C9 amended: determinism modulo `time_ms` holds when the provided seed
is NONZERO (and both runs complete within budget): the two successful
responses agree on everything except `summary.time_ms`.  A provided seed of
`0` falls back to the wall clock, which breaks the claim as stated. -/
theorem claim_c9_amended (env1 env2 : Env) (req : OptimizeRequest) (s : ℤ)
    (hs : req.params.seed = Option.some s) (hnz : s ≠ 0)
    (hor : env1.oracle = env2.oracle) (hp : env1.pick = env2.pick)
    (hsh : env1.shuffle = env2.shuffle) (hsvg : env1.renderSvg = env2.renderSvg)
    (r1 r2 : OptimizeResponse)
    (h1 : optimize env1 req = Except.ok r1)
    (h2 : optimize env2 req = Except.ok r2) :
    r1.summary = { r2.summary with time_ms := r1.summary.time_ms } ∧
    r1.solutions = r2.solutions ∧ r1.artifacts = r2.artifacts ∧
    r1.status = r2.status := by
  have hseed : ∀ c, resolveSeed req.params.seed c = s := by
    intro c
    simp [resolveSeed, hs, hnz]
  simp only [optimize] at h1 h2
  rw [hor, hp, hsh, hsvg, hseed] at h1
  rw [hseed] at h2
  split at h1
  · cases h1
  · split at h1
    · cases h1
    · split at h1
      · cases h1
      · rename_i x1 me hme x2 u1 hvr x3 v1 hvf
        simp only [hme] at h2
        simp only [hvr] at h2
        simp only [hvf] at h2
        split at h1
        · cases h1
        · cases h1
        · rename_i y1 best1 hsg1
          split at h2
          · cases h2
          · cases h2
          · rename_i y2 best2 hsg2
            have hbb := searchGo_ok_det _ _ _ env1.elapsed env2.elapsed _ _ _ _ _
              _ _ _ _ 0 Option.none _ _ hsg1 hsg2
            cases hbb
            split at h1
            · cases h1
            · rename_i z1 sols1 hbs1
              simp only [hbs1] at h2
              cases h1
              cases h2
              exact ⟨rfl, rfl, rfl, rfl⟩

/-- C9 witness: the amended theorem applied to the base request (seed 5)
under two different clocks; the results agree modulo `time_ms`. -/
theorem claim_c9_witness :
    respEqModuloTime (optimize envBase reqBase) (optimize envAlt reqBase) =
      true := by
  have hok1 : respIsOk (optimize envBase reqBase) = true := by
    with_unfolding_all decide
  have hok2 : respIsOk (optimize envAlt reqBase) = true := by
    with_unfolding_all decide
  cases hh1 : optimize envBase reqBase with
  | error e =>
      rw [hh1] at hok1
      simp [respIsOk] at hok1
  | ok r1 =>
      cases hh2 : optimize envAlt reqBase with
      | error e =>
          rw [hh2] at hok2
          simp [respIsOk] at hok2
      | ok r2 =>
          obtain ⟨ha, hb, hc, hd⟩ := claim_c9_amended envBase envAlt reqBase 5
            rfl (by decide) rfl rfl rfl rfl r1 r2 hh1 hh2
          simp only [respEqModuloTime, Bool.and_eq_true, decide_eq_true_eq]
          exact ⟨⟨⟨ha, hb⟩, hc⟩, hd⟩

set_option maxRecDepth 8000 in
/-- C9 counterexample: with provided seed `0`, two runs that differ only in
the entry wall clock both succeed and return responses that differ beyond
`time_ms` (their `summary.seed` fields are the two clocks). -/
theorem claim_c9_counterexample :
    reqSeed0.params.seed = Option.some 0 ∧
    respIsOk (optimize envBase reqSeed0) = true ∧
    respIsOk (optimize envClock888 reqSeed0) = true ∧
    respEqModuloTime (optimize envBase reqSeed0)
      (optimize envClock888 reqSeed0) = false := by
  refine ⟨rfl, ?_, ?_, ?_⟩ <;> with_unfolding_all decide

/-! ## Claim C4: non-positive unit_scale -/

/-- The per-stock trim loop either passes or raises a validation error. -/
theorem checkStocks_cases (trim : Trim) :
    ∀ l, checkStocks trim l = Except.ok () ∨
      ∃ m, checkStocks trim l = Except.error (ApiErr.validation m) := by
  intro l
  induction l with
  | nil => left; rfl
  | cons s rest ih =>
      by_cases h1 : s.width_mm ≤ trim.left + trim.right
      · right
        refine ⟨"trim.left + trim.right must be less than stock.width_mm", ?_⟩
        simp [checkStocks, h1]
      · by_cases h2 : s.height_mm ≤ trim.top + trim.bottom
        · right
          refine ⟨"trim.top + trim.bottom must be less than stock.height_mm", ?_⟩
          simp [checkStocks, h1, h2]
        · have hstep : checkStocks trim (s :: rest) = checkStocks trim rest := by
            simp [checkStocks, h1, h2]
          rw [hstep]
          exact ih

/-- With a non-positive scale, `_validate_request` always raises a
validation error (at the scale check at the latest). -/
theorem validate_request_scale_nonpos (req : OptimizeRequest) (scale : ℤ)
    (hs : scale ≤ 0) :
    ∃ m, validate_request req scale = Except.error (ApiErr.validation m) := by
  by_cases h1 : req.units ≠ "mm"
  · refine ⟨"units must be mm", ?_⟩
    simp [validate_request, h1]
  · by_cases h2 : min 5000 maxInstances < totalQty req.items
    · refine ⟨"items.qty total exceeds limit", ?_⟩
      simp [validate_request, h1, h2]
    · by_cases h3 : 50 < req.stock.length
      · refine ⟨"stock length exceeds limit", ?_⟩
        simp [validate_request, h1, h2, h3]
      · rcases checkStocks_cases req.params.trim_mm req.stock with hcs | ⟨m, hcs⟩
        · refine ⟨"unit_scale must be positive", ?_⟩
          simp [validate_request, h1, h2, h3, hcs, hs]
        · refine ⟨m, ?_⟩
          simp [validate_request, h1, h2, h3, hcs]

/-- `_resolve_mode_engine` either resolves or raises a validation error. -/
theorem resolve_mode_engine_cases (req : OptimizeRequest) :
    (∃ me, resolve_mode_engine req = Except.ok me) ∨
      ∃ m, resolve_mode_engine req = Except.error (ApiErr.validation m) := by
  simp only [resolve_mode_engine]
  split_ifs with hc1 hc2
  · right
    exact ⟨_, rfl⟩
  · right
    exact ⟨_, rfl⟩
  · left
    exact ⟨_, rfl⟩

/-- C4 amended: a provided NEGATIVE `unit_scale` makes `optimize` fail with
a VALIDATION error (code VALIDATION_ERROR, HTTP 422); but a provided
`unit_scale = 0` is treated by Python `or` as absent, is replaced by the
default scale and can produce a successful response, so the claim fails
for `unit_scale = 0`. -/
theorem claim_c4_amended (env : Env) (req : OptimizeRequest) (u : ℤ)
    (hu : req.params.unit_scale = Option.some u) (hneg : u < 0) :
    ∃ msg, optimize env req = Except.error (ApiErr.validation msg) ∧
      (ApiErr.validation msg).statusCode = 422 ∧
      (ApiErr.validation msg).errorCode = "VALIDATION_ERROR" := by
  have hscale : resolveScale req.params.unit_scale = u := by
    have : u ≠ 0 := by omega
    simp [resolveScale, hu, this]
  rcases resolve_mode_engine_cases req with ⟨me, hme⟩ | ⟨m, hme⟩
  · obtain ⟨m2, hvr⟩ := validate_request_scale_nonpos req u (by omega)
    refine ⟨m2, ?_, rfl, rfl⟩
    simp only [optimize, hscale, hme, hvr]
  · refine ⟨m, ?_, rfl, rfl⟩
    simp only [optimize, hscale, hme]

/-- C4 witness: the amended theorem applied to the concrete request with
`unit_scale = -5`. -/
theorem claim_c4_witness : respIsValidation (optimize envBase reqNegScale) = true := by
  obtain ⟨m, hm, _, _⟩ := claim_c4_amended envBase reqNegScale (-5) rfl (by norm_num)
  rw [hm]
  rfl

/-- C4 counterexample: `unit_scale = 0` is provided and non-positive, yet
`optimize` succeeds (the zero is silently replaced by the default scale
100), contradicting the claim that every such request fails with
VALIDATION. -/
theorem claim_c4_counterexample :
    reqZeroScale.params.unit_scale = Option.some 0 ∧
    respIsOk (optimize envBase reqZeroScale) = true := by
  exact ⟨rfl, by with_unfolding_all decide⟩

end RectPack
